import Mathlib

/-!
Shallow embedding of the Musico client (src/App.tsx together with the
earlier revisions kept in src/unnamed/part_000 and src/unnamed/part_001).
Pure data is translated to Lean structures; the stateful React handlers
become explicit state-passing functions.  Nondeterministic inputs of the
environment (Math.random ids, Date.now timestamps, success or failure of
remote writes and network fetches) become explicit parameters.
-/

namespace Musico

/-- `Song` from src/types.ts: id, title, artist, optional album, artwork
URL (`img`) and stream URL (`url`). -/
structure Song where
  id : String
  title : String
  artist : String
  album : Option String
  img : String
  url : String
deriving DecidableEq, Repr

/-- The `type` field of a coin transaction: the literal union
`'earn' | 'spend'` from src/types.ts. -/
inductive TxType where
  | earn
  | spend
deriving DecidableEq, Repr

/-- `CoinTransaction` from src/types.ts. -/
structure CoinTransaction where
  id : String
  type : TxType
  amount : Int
  description : String
  timestamp : Nat
deriving DecidableEq, Repr

/-- `UserData` from src/types.ts (the revision used by src/App.tsx:
with `theme`, `likedSongs` and `coinHistory`). -/
structure UserData where
  uid : String
  name : String
  email : String
  isPrivate : Bool
  coins : Int
  isPremium : Bool
  theme : String
  friends : List String
  likedSongs : List String
  coinHistory : List CoinTransaction
deriving DecidableEq, Repr

/-- Firestore `arrayUnion` restricted to a single element: appends the
element to the stored array unless it is already present. -/
def arrayUnion {α : Type} [DecidableEq α] (xs : List α) (x : α) : List α :=
  if x ∈ xs then xs else xs ++ [x]

/-- The transaction record `const newTx : CoinTransaction = { id:
Math.random()..., type, amount, description, timestamp: Date.now() }`
built inside `processTransaction` (src/App.tsx).  The random id and the
clock reading are passed in as `txId` and `now`. -/
def mkTx (txId : String) (type : TxType) (amount : Int) (description : String)
    (now : Nat) : CoinTransaction :=
  { id := txId, type := type, amount := amount, description := description,
    timestamp := now }

/-- `processTransaction(amount, description, type)` from src/App.tsx.
Returns the `true`/`false` result together with the user record after the
remote write.  `userData` is `none` when no user record is cached
(`if (!userData) return false`).  `writeOk` models whether the single
`updateDoc` (atomic increment of `coins` plus `arrayUnion` append to
`coinHistory`) succeeds; on failure the catch clause returns `false` and
nothing changes. -/
def processTransaction (userData : Option UserData) (amount : Int)
    (description : String) (type : TxType) (txId : String) (now : Nat)
    (writeOk : Bool) : Bool × Option UserData :=
  match userData with
  | none => (false, none)
  | some u =>
    if type = TxType.spend ∧ u.coins < amount then
      (false, some u)
    else if writeOk then
      (true, some { u with
        coins := u.coins + (if type = TxType.earn then amount else -amount),
        coinHistory := arrayUnion u.coinHistory (mkTx txId type amount description now) })
    else
      (false, some u)

/-- Timestamps along the coin history are monotonically non-decreasing. -/
def timestampsMono (h : List CoinTransaction) : Prop :=
  List.Chain' (fun a b => a.timestamp ≤ b.timestamp) h

instance (h : List CoinTransaction) : Decidable (timestampsMono h) :=
  inferInstanceAs (Decidable
    (List.Chain' (fun a b : CoinTransaction => a.timestamp ≤ b.timestamp) h))

end Musico

namespace Musico

/-- A concrete user record used to instantiate hypotheses. -/
def sampleUser : UserData :=
  { uid := "u1", name := "Ada", email := "ada@example.com", isPrivate := false,
    coins := 20, isPremium := false, theme := "default", friends := [],
    likedSongs := [],
    coinHistory := [mkTx "genesis" TxType.earn 20 "Galaxy Manifested" 100] }

/-- `handleLike(songId)` from src/App.tsx: reads
`isLiked = userData.likedSongs?.includes(songId)` and issues a single
`updateDoc` that either filters the id out of `likedSongs` or
`arrayUnion`s it in.  Modelled as the resulting user record. -/
def handleLike (u : UserData) (songId : String) : UserData :=
  let isLiked := songId ∈ u.likedSongs
  { u with likedSongs :=
      if isLiked then u.likedSongs.filter (fun i => i ≠ songId)
      else arrayUnion u.likedSongs songId }

/-- `PlayerState`: the slice of `App` component state touched by
`handlePlay` (src/App.tsx).  `audioReady` models `audioRef.current` being
non-null, `audioSrc` the element's `src`, `loadCount` counts calls to
`audioRef.current.load()`, `lastSaved` the locally persisted
`musico_last_song` key, and `mediaMetadata` the platform now-playing
metadata set by `updateMediaMetadata`. -/
structure PlayerState where
  audioReady : Bool
  currentSong : Option Song
  isPlaying : Bool
  audioSrc : String
  loadCount : Nat
  lastSaved : Option Song
  mediaMetadata : Option Song
deriving DecidableEq, Repr

/-- `handlePlay(song)` from src/App.tsx.  If the audio element is missing
the call returns immediately.  If the song's id equals the active song's
id, play/pause is toggled (the resume branch sets `isPlaying` to `true`
unconditionally; a failed `play()` is swallowed by `.catch(() => {})`).
Otherwise the new song becomes current, the `musico_last_song` key is
written, the element's src is set and reloaded, and the asynchronous
`play()` promise resolves to `isPlaying := playOk`. -/
def handlePlay (st : PlayerState) (song : Song) (playOk : Bool) : PlayerState :=
  if !st.audioReady then st
  else if st.currentSong.map Song.id = some song.id then
    if st.isPlaying then { st with isPlaying := false }
    else { st with isPlaying := true }
  else
    { st with
      currentSong := some song,
      lastSaved := some song,
      audioSrc := song.url,
      loadCount := st.loadCount + 1,
      isPlaying := playOk,
      mediaMetadata := some song }

/-- The "Load last played song" effect from the earlier App revision
(src/unnamed/part_000, lines 86–97): at startup the `musico_last_song`
key is read once and, when present and parseable, becomes the current
song. -/
def restoreSession (st : PlayerState) : PlayerState :=
  match st.lastSaved with
  | some song => { st with currentSong := some song }
  | none => st

end Musico

namespace Musico

/-- C1: a `spend` call whose amount exceeds the cached balance returns
`false` and leaves the user record untouched: the balance is unchanged and
no transaction is appended to the coin history. -/
theorem spend_insufficient_rejected (u : UserData) (amount : Int)
    (description txId : String) (now : Nat) (writeOk : Bool)
    (h : u.coins < amount) :
    processTransaction (some u) amount description TxType.spend txId now writeOk
      = (false, some u) := by
  simp [processTransaction, h]

/-- Closed instance of `spend_insufficient_rejected` at a concrete user. -/
theorem spend_insufficient_rejected_witness :
    sampleUser.coins < 25 ∧
    processTransaction (some sampleUser) 25 "Gifting: X" TxType.spend "t1" 200 true
      = (false, some sampleUser) :=
  ⟨by decide, spend_insufficient_rejected sampleUser 25 "Gifting: X" "t1" 200 true (by decide)⟩

/-- C2: whenever `processTransaction` succeeds, the balance moves by
exactly `+amount` on `earn` and `-amount` on `spend`, the coin history
gains exactly one new record with that amount and direction (appended by
the same `updateDoc` write), and the history's timestamps stay
monotonically non-decreasing.  `hfresh` records that the freshly generated
transaction (random id, current clock) is not already in the history;
`hnow` that the clock does not run backwards past recorded timestamps. -/
theorem processTransaction_success_shape (u u' : UserData) (amount : Int)
    (description txId : String) (type : TxType) (now : Nat) (writeOk : Bool)
    (hfresh : mkTx txId type amount description now ∉ u.coinHistory)
    (hnow : ∀ t ∈ u.coinHistory, t.timestamp ≤ now)
    (hmono : timestampsMono u.coinHistory)
    (hsucc : processTransaction (some u) amount description type txId now writeOk
      = (true, some u')) :
    (type = TxType.earn → u'.coins = u.coins + amount) ∧
    (type = TxType.spend → u'.coins = u.coins - amount) ∧
    u'.coinHistory = u.coinHistory ++ [mkTx txId type amount description now] ∧
    (mkTx txId type amount description now).amount = amount ∧
    (mkTx txId type amount description now).type = type ∧
    timestampsMono u'.coinHistory := by
  have happ : arrayUnion u.coinHistory (mkTx txId type amount description now)
      = u.coinHistory ++ [mkTx txId type amount description now] := by
    unfold arrayUnion
    rw [if_neg hfresh]
  by_cases hguard : type = TxType.spend ∧ u.coins < amount
  · exfalso
    simp [processTransaction, hguard] at hsucc
  · cases writeOk with
    | false =>
      exfalso
      simp [processTransaction, hguard] at hsucc
    | true =>
      simp only [processTransaction, if_neg hguard, eq_self_iff_true, if_true,
        Prod.mk.injEq, Option.some.injEq, true_and] at hsucc
      subst hsucc
      refine ⟨?_, ?_, ?_, rfl, rfl, ?_⟩
      · intro ht; simp [ht]
      · intro ht
        cases type with
        | earn => cases ht
        | spend => simp [sub_eq_add_neg]
      · exact happ
      · show timestampsMono (arrayUnion u.coinHistory (mkTx txId type amount description now))
        rw [happ]
        unfold timestampsMono at *
        rw [List.chain'_append]
        refine ⟨hmono, List.chain'_singleton _, ?_⟩
        intro x hx y hy
        have hxmem : x ∈ u.coinHistory := List.mem_of_mem_getLast? hx
        obtain rfl : mkTx txId type amount description now = y := by simpa using hy
        exact hnow x hxmem

/-- Closed instance of `processTransaction_success_shape`: an earn of 7 on
the sample user. -/
theorem processTransaction_success_shape_witness :
    (mkTx "t2" TxType.earn 7 "bonus" 300 ∉ sampleUser.coinHistory) ∧
    (∀ t ∈ sampleUser.coinHistory, t.timestamp ≤ 300) ∧
    timestampsMono sampleUser.coinHistory ∧
    (processTransaction (some sampleUser) 7 "bonus" TxType.earn "t2" 300 true
      = (true, some { sampleUser with
          coins := 27,
          coinHistory := sampleUser.coinHistory ++ [mkTx "t2" TxType.earn 7 "bonus" 300] })) ∧
    ((TxType.earn = TxType.earn →
        ({ sampleUser with
            coins := 27,
            coinHistory := sampleUser.coinHistory
              ++ [mkTx "t2" TxType.earn 7 "bonus" 300] } : UserData).coins
          = sampleUser.coins + 7) ∧
      (TxType.earn = TxType.spend →
        ({ sampleUser with
            coins := 27,
            coinHistory := sampleUser.coinHistory
              ++ [mkTx "t2" TxType.earn 7 "bonus" 300] } : UserData).coins
          = sampleUser.coins - 7) ∧
      ({ sampleUser with
          coins := 27,
          coinHistory := sampleUser.coinHistory
            ++ [mkTx "t2" TxType.earn 7 "bonus" 300] } : UserData).coinHistory
        = sampleUser.coinHistory ++ [mkTx "t2" TxType.earn 7 "bonus" 300] ∧
      (mkTx "t2" TxType.earn 7 "bonus" 300).amount = 7 ∧
      (mkTx "t2" TxType.earn 7 "bonus" 300).type = TxType.earn ∧
      timestampsMono ({ sampleUser with
          coins := 27,
          coinHistory := sampleUser.coinHistory
            ++ [mkTx "t2" TxType.earn 7 "bonus" 300] } : UserData).coinHistory) :=
  ⟨by decide, by decide, List.chain'_singleton _, by decide,
    processTransaction_success_shape sampleUser _ 7 "bonus" "t2" TxType.earn 300 true
      (by decide) (by decide) (List.chain'_singleton _) (by decide)⟩

end Musico

namespace Musico

/-- A concrete song used to instantiate hypotheses. -/
def sampleSong : Song :=
  { id := "s1", title := "Aurora", artist := "Nova", album := none,
    img := "a.png", url := "cdn/a.mp3" }

/-- A second concrete song with a different id. -/
def sampleSong2 : Song :=
  { id := "s2", title := "Eclipse", artist := "Nova", album := none,
    img := "b.png", url := "cdn/b.mp3" }

/-- A concrete player state: `sampleSong` loaded and paused. -/
def samplePlayer : PlayerState :=
  { audioReady := true, currentSong := some sampleSong, isPlaying := false,
    audioSrc := "cdn/a.mp3", loadCount := 1, lastSaved := some sampleSong,
    mediaMetadata := some sampleSong }

/-- On the currently active song, `handlePlay` is exactly a play/pause
toggle: only `isPlaying` changes. -/
theorem handlePlay_same_toggle (st : PlayerState) (t : Song) (a : Bool)
    (hready : st.audioReady = true)
    (hcur : st.currentSong.map Song.id = some t.id) :
    handlePlay st t a = { st with isPlaying := !st.isPlaying } := by
  unfold handlePlay
  rw [hready, hcur]
  cases hp : st.isPlaying <;> simp

/-- C7: `handleLike(id)` flips membership of `id` in the liked set, and a
second invocation with no intervening change restores the original
membership. -/
theorem handleLike_toggles_membership (u : UserData) (songId : String) :
    (songId ∈ (handleLike u songId).likedSongs ↔ songId ∉ u.likedSongs) ∧
    (songId ∈ (handleLike (handleLike u songId) songId).likedSongs
      ↔ songId ∈ u.likedSongs) := by
  by_cases h : songId ∈ u.likedSongs <;>
    simp [handleLike, arrayUnion, h, List.mem_filter]

/-- C4: with the audio element present and `t` the active song,
`handlePlay t` toggles Playing/Paused in place (no reload: src, load
count, current song and saved snapshot unchanged); two calls restore the
starting state, a third reproduces the state after the first; and a song
with a different id instead takes the full load transition. -/
theorem handlePlay_toggle_and_load (st : PlayerState) (t : Song)
    (hready : st.audioReady = true)
    (hcur : st.currentSong = some t) :
    (∀ a : Bool, handlePlay st t a = { st with isPlaying := !st.isPlaying }) ∧
    (∀ a b : Bool, handlePlay (handlePlay st t a) t b = st) ∧
    (∀ a b c : Bool,
      handlePlay (handlePlay (handlePlay st t a) t b) t c = handlePlay st t a) ∧
    (∀ (t' : Song) (p : Bool), t'.id ≠ t.id →
      handlePlay st t' p = { st with
        currentSong := some t', lastSaved := some t', audioSrc := t'.url,
        loadCount := st.loadCount + 1, isPlaying := p,
        mediaMetadata := some t' }) := by
  have hmap : st.currentSong.map Song.id = some t.id := by rw [hcur]; rfl
  have h1 : ∀ a : Bool, handlePlay st t a = { st with isPlaying := !st.isPlaying } :=
    fun a => handlePlay_same_toggle st t a hready hmap
  have h2 : ∀ a b : Bool, handlePlay (handlePlay st t a) t b = st := by
    intro a b
    rw [h1 a,
      handlePlay_same_toggle { st with isPlaying := !st.isPlaying } t b hready hmap]
    simp
  refine ⟨h1, h2, ?_, ?_⟩
  · intro a b c
    rw [h2 a b, h1 a, handlePlay_same_toggle st t c hready hmap]
  · intro t' p hne
    have hne' : ¬ (t.id = t'.id) := fun h => hne h.symm
    unfold handlePlay
    rw [hready, hmap]
    simp [hne']

/-- Closed instance of `handlePlay_toggle_and_load` on `samplePlayer`. -/
theorem handlePlay_toggle_and_load_witness :
    samplePlayer.audioReady = true ∧
    samplePlayer.currentSong = some sampleSong ∧
    ((∀ a : Bool, handlePlay samplePlayer sampleSong a
        = { samplePlayer with isPlaying := !samplePlayer.isPlaying }) ∧
      (∀ a b : Bool,
        handlePlay (handlePlay samplePlayer sampleSong a) sampleSong b = samplePlayer) ∧
      (∀ a b c : Bool,
        handlePlay (handlePlay (handlePlay samplePlayer sampleSong a) sampleSong b) sampleSong c
          = handlePlay samplePlayer sampleSong a) ∧
      (∀ (t' : Song) (p : Bool), t'.id ≠ sampleSong.id →
        handlePlay samplePlayer t' p = { samplePlayer with
          currentSong := some t', lastSaved := some t', audioSrc := t'.url,
          loadCount := samplePlayer.loadCount + 1, isPlaying := p,
          mediaMetadata := some t' })) :=
  ⟨rfl, rfl, handlePlay_toggle_and_load samplePlayer sampleSong rfl rfl⟩

/-- C9: the `musico_last_song` key is written on every track change (a
play of a song whose id differs from the active one stores that song's
descriptor), and at startup the key is read and restores the current
track of the playback session. -/
theorem last_song_saved_and_restored (st : PlayerState) (song s : Song) (p : Bool)
    (hready : st.audioReady = true)
    (hdiff : st.currentSong.map Song.id ≠ some song.id)
    (hsaved : st.lastSaved = some s) :
    (handlePlay st song p).lastSaved = some song ∧
    (restoreSession st).currentSong = some s := by
  constructor
  · unfold handlePlay
    rw [hready]
    simp [hdiff]
  · unfold restoreSession
    rw [hsaved]

/-- Closed instance of `last_song_saved_and_restored`. -/
theorem last_song_saved_and_restored_witness :
    samplePlayer.audioReady = true ∧
    samplePlayer.currentSong.map Song.id ≠ some sampleSong2.id ∧
    samplePlayer.lastSaved = some sampleSong ∧
    ((handlePlay samplePlayer sampleSong2 true).lastSaved = some sampleSong2 ∧
      (restoreSession samplePlayer).currentSong = some sampleSong) :=
  ⟨rfl, by decide, rfl,
    last_song_saved_and_restored samplePlayer sampleSong2 sampleSong true rfl (by decide) rfl⟩

end Musico

namespace Musico

/-- Modelled from the spec: the Local Offline Cache service
(`saveSongOffline` from services/indexedDB, not part of the sources given)
"stores a blob plus metadata under a track id key" (§4.3).  The audio blob
itself is abstracted away; an entry is the track id together with the
display metadata `{ ...song }` that src/App.tsx passes. -/
def saveSongOffline (cache : List (String × Song)) (id : String) (meta : Song) :
    List (String × Song) :=
  (id, meta) :: cache.filter (fun e => e.1 ≠ id)

/-- Modelled from the spec: lookup in the Local Offline Cache by track id
(the read direction of the §4.3 contract). -/
def getOfflineSong (cache : List (String × Song)) (id : String) : Option Song :=
  (cache.find? (fun e => e.1 == id)).map Prod.snd

/-- The slice of `App` component state that `handleDownload` touches:
the cached user record, the Local Offline Cache, and the toast line. -/
structure AppState where
  userData : Option UserData
  offlineCache : List (String × Song)
  toast : String
deriving DecidableEq, Repr

/-- Externally visible effects of a download, in the order they are
issued. -/
inductive Effect where
  | fetchAudio (url : String)
  | cacheWrite (id : String)
  | debit (amount : Int)
deriving DecidableEq, Repr

/-- The guard `!userData?.isPremium && userData?.coins! < 5` of
`handleDownload` (src/App.tsx).  When no user record is cached the
JavaScript comparison `undefined < 5` is `false`, so the guard fails. -/
def downloadGuardFails : Option UserData → Bool
  | none => false
  | some u => !u.isPremium && decide (u.coins < 5)

/-- Whether `!userData?.isPremium` holds, as in the debit step of
`handleDownload`. -/
def notPremium : Option UserData → Bool
  | none => true
  | some u => !u.isPremium

/-- `handleDownload(song)` from src/App.tsx.  Aborts with the
"Premium or 5 coins required 🪙" toast when the user is neither premium
nor holding 5 coins; otherwise fetches the audio (`fetchOk` models the
fetch/blob chain succeeding — a failure lands in the catch clause with no
cache write), persists the entry via `saveSongOffline(song.id, blob,
{...song})`, and only then, for non-premium users, debits 5 coins through
`processTransaction`.  Returns the new state and the ordered effect
trace. -/
def handleDownload (st : AppState) (song : Song) (txId : String) (now : Nat)
    (fetchOk writeOk : Bool) : AppState × List Effect :=
  if downloadGuardFails st.userData then
    ({ st with toast := "Premium or 5 coins required 🪙" }, [])
  else if fetchOk then
    let cache1 := saveSongOffline st.offlineCache song.id song
    if notPremium st.userData then
      let r := processTransaction st.userData 5 ("Downloaded: " ++ song.title)
        TxType.spend txId now writeOk
      ({ st with
          offlineCache := cache1,
          userData := r.2,
          toast := "Securely stored offline! 🔒" },
        [Effect.fetchAudio song.url, Effect.cacheWrite song.id]
          ++ (if r.1 then [Effect.debit 5] else []))
    else
      ({ st with offlineCache := cache1, toast := "Securely stored offline! 🔒" },
        [Effect.fetchAudio song.url, Effect.cacheWrite song.id])
  else
    ({ st with toast := "Transmission interrupted." }, [Effect.fetchAudio song.url])

end Musico

namespace Musico

/-- C5: a non-premium user with fewer than 5 coins gets the
insufficient-funds toast and nothing else happens — state unchanged apart
from the toast, empty effect trace (no fetch, no cache write, no debit,
no transaction). -/
theorem download_insufficient_no_effects (st : AppState) (u : UserData)
    (song : Song) (txId : String) (now : Nat) (fetchOk writeOk : Bool)
    (hu : st.userData = some u)
    (hprem : u.isPremium = false)
    (hcoins : u.coins < 5) :
    handleDownload st song txId now fetchOk writeOk
      = ({ st with toast := "Premium or 5 coins required 🪙" }, []) := by
  have hguard : downloadGuardFails st.userData = true := by
    rw [hu]
    simp [downloadGuardFails, hprem, hcoins]
  unfold handleDownload
  rw [hguard]
  simp

/-- Closed instance of `download_insufficient_no_effects`: 3 coins, not
premium, cost 5. -/
theorem download_insufficient_no_effects_witness :
    ({ userData := some { sampleUser with coins := 3 }, offlineCache := [],
        toast := "" } : AppState).userData = some { sampleUser with coins := 3 } ∧
    ({ sampleUser with coins := 3 } : UserData).isPremium = false ∧
    ({ sampleUser with coins := 3 } : UserData).coins < 5 ∧
    handleDownload
        { userData := some { sampleUser with coins := 3 }, offlineCache := [],
          toast := "" } sampleSong "t3" 400 true true
      = ({ userData := some { sampleUser with coins := 3 }, offlineCache := [],
            toast := "Premium or 5 coins required 🪙" }, []) :=
  ⟨rfl, rfl, by decide,
    download_insufficient_no_effects _ { sampleUser with coins := 3 }
      sampleSong "t3" 400 true true rfl rfl (by decide)⟩

end Musico

namespace Musico

/-- A cache write followed by a lookup of the same key returns the stored
metadata. -/
theorem getOfflineSong_save (cache : List (String × Song)) (id : String)
    (meta : Song) :
    getOfflineSong (saveSongOffline cache id meta) id = some meta := by
  simp [getOfflineSong, saveSongOffline]

/-- C6: for a non-premium user holding 20 coins, a successful download
fetches the audio, writes the cache entry keyed by `song.id`, and then
debits 5 coins: the balance lands on 15, exactly one spend transaction of
amount 5 is appended, the cache answers for `song.id`, and the effect
trace places the cache write strictly before the debit. -/
theorem download_success_scenario (st : AppState) (u : UserData) (song : Song)
    (txId : String) (now : Nat)
    (hu : st.userData = some u)
    (hprem : u.isPremium = false)
    (hcoins : u.coins = 20)
    (hfresh : mkTx txId TxType.spend 5 ("Downloaded: " ++ song.title) now
      ∉ u.coinHistory) :
    (handleDownload st song txId now true true).1.userData.map UserData.coins
      = some 15 ∧
    (handleDownload st song txId now true true).1.userData.map UserData.coinHistory
      = some (u.coinHistory
          ++ [mkTx txId TxType.spend 5 ("Downloaded: " ++ song.title) now]) ∧
    getOfflineSong (handleDownload st song txId now true true).1.offlineCache song.id
      = some song ∧
    (handleDownload st song txId now true true).2
      = [Effect.fetchAudio song.url, Effect.cacheWrite song.id, Effect.debit 5] := by
  have hguard : downloadGuardFails st.userData = false := by
    rw [hu]
    simp [downloadGuardFails, hcoins]
  have hnp : notPremium st.userData = true := by
    rw [hu]
    simp [notPremium, hprem]
  have hpt : processTransaction st.userData 5 ("Downloaded: " ++ song.title)
      TxType.spend txId now true
      = (true, some { u with
          coins := u.coins + -5,
          coinHistory := u.coinHistory
            ++ [mkTx txId TxType.spend 5 ("Downloaded: " ++ song.title) now] }) := by
    rw [hu]
    have hlt : ¬ (TxType.spend = TxType.spend ∧ u.coins < 5) := by
      rintro ⟨-, hl⟩
      rw [hcoins] at hl
      exact absurd hl (by decide)
    simp only [processTransaction, if_neg hlt, eq_self_iff_true, if_true]
    have : arrayUnion u.coinHistory
        (mkTx txId TxType.spend 5 ("Downloaded: " ++ song.title) now)
        = u.coinHistory
          ++ [mkTx txId TxType.spend 5 ("Downloaded: " ++ song.title) now] := by
      unfold arrayUnion
      rw [if_neg hfresh]
    rw [this]
    simp [hcoins]
  have hD : handleDownload st song txId now true true
      = ({ st with
            offlineCache := saveSongOffline st.offlineCache song.id song,
            userData := some { u with
              coins := u.coins + -5,
              coinHistory := u.coinHistory
                ++ [mkTx txId TxType.spend 5 ("Downloaded: " ++ song.title) now] },
            toast := "Securely stored offline! 🔒" },
          [Effect.fetchAudio song.url, Effect.cacheWrite song.id, Effect.debit 5]) := by
    unfold handleDownload
    rw [hguard, hnp, hpt]
    simp
  rw [hD]
  refine ⟨?_, by simp, getOfflineSong_save _ _ _, rfl⟩
  simp [hcoins]

/-- A concrete app state: `sampleUser` signed in, empty cache. -/
def sampleApp : AppState :=
  { userData := some sampleUser, offlineCache := [], toast := "" }

/-- Closed instance of `download_success_scenario` on `sampleApp`. -/
theorem download_success_scenario_witness :
    sampleApp.userData = some sampleUser ∧
    sampleUser.isPremium = false ∧
    sampleUser.coins = 20 ∧
    (mkTx "t4" TxType.spend 5 ("Downloaded: " ++ sampleSong.title) 500
      ∉ sampleUser.coinHistory) ∧
    ((handleDownload sampleApp sampleSong "t4" 500 true true).1.userData.map
        UserData.coins = some 15 ∧
      (handleDownload sampleApp sampleSong "t4" 500 true true).1.userData.map
        UserData.coinHistory
        = some (sampleUser.coinHistory
            ++ [mkTx "t4" TxType.spend 5 ("Downloaded: " ++ sampleSong.title) 500]) ∧
      getOfflineSong
          (handleDownload sampleApp sampleSong "t4" 500 true true).1.offlineCache
          sampleSong.id
        = some sampleSong ∧
      (handleDownload sampleApp sampleSong "t4" 500 true true).2
        = [Effect.fetchAudio sampleSong.url, Effect.cacheWrite sampleSong.id,
            Effect.debit 5]) :=
  ⟨rfl, rfl, rfl, by decide,
    download_success_scenario sampleApp sampleUser sampleSong "t4" 500
      rfl rfl rfl (by decide)⟩

end Musico

namespace Musico

/-- The Profile screen's `onUpgrade` callback from the earlier App
revision (src/unnamed/part_000): `processTransaction(100, "Elite Tier
Upgrade", "spend")` and, only on success, a second independent write
setting `isPremium` (`premiumOk` models that separate write landing). -/
def handleUpgrade (ud : Option UserData) (txId : String) (now : Nat)
    (writeOk premiumOk : Bool) : Option UserData :=
  let r := processTransaction ud 100 "Elite Tier Upgrade" TxType.spend txId now writeOk
  if r.1 && premiumOk then r.2.map (fun u => { u with isPremium := true }) else r.2

/-- The dedication `onSend` callback (src/App.tsx): a gated spend of 5
coins; the dedication document appended on success lives in another
collection and does not touch the user record. -/
def handleDedicate (ud : Option UserData) (songTitle : String) (txId : String)
    (now : Nat) (writeOk : Bool) : Option UserData :=
  (processTransaction ud 5 ("Gifting: " ++ songTitle) TxType.spend txId now writeOk).2

/-- The coin-affecting user actions reachable from the UI, with their
environment inputs. -/
inductive CoinOp where
  | download (song : Song) (txId : String) (now : Nat) (fetchOk writeOk : Bool)
  | upgrade (txId : String) (now : Nat) (writeOk premiumOk : Bool)
  | dedicate (song : Song) (txId : String) (now : Nat) (writeOk : Bool)
deriving DecidableEq, Repr

/-- One sequentially executed coin-affecting operation. -/
def stepCoinOp (st : AppState) (op : CoinOp) : AppState :=
  match op with
  | CoinOp.download song txId now f w => (handleDownload st song txId now f w).1
  | CoinOp.upgrade txId now w p =>
    { st with userData := handleUpgrade st.userData txId now w p }
  | CoinOp.dedicate song txId now w =>
    { st with userData := handleDedicate st.userData song.title txId now w }

/-- The cached user record, when present, has a non-negative balance. -/
def coinsNonneg : Option UserData → Prop
  | none => True
  | some u => 0 ≤ u.coins

/-- A `spend` through `processTransaction` never drives the balance
negative: the guard rejects any amount above the balance before the
decrement. -/
theorem processTransaction_spend_nonneg (ud : Option UserData) (amount : Int)
    (d txId : String) (now : Nat) (w : Bool) (h : coinsNonneg ud) :
    coinsNonneg (processTransaction ud amount d TxType.spend txId now w).2 := by
  cases ud with
  | none => trivial
  | some u =>
    by_cases hg : TxType.spend = TxType.spend ∧ u.coins < amount
    · simpa [processTransaction, hg] using h
    · have hge : amount ≤ u.coins := by
        by_contra hlt
        exact hg ⟨rfl, lt_of_not_le hlt⟩
      cases w with
      | false => simpa [processTransaction, hg] using h
      | true =>
        have h' : (0 : Int) ≤ u.coins := h
        show coinsNonneg
          ((if TxType.spend = TxType.spend ∧ u.coins < amount then
              ((false : Bool), some u)
            else if true = true then
              (true, some { u with
                coins := u.coins
                  + (if TxType.spend = TxType.earn then amount else -amount),
                coinHistory := arrayUnion u.coinHistory
                  (mkTx txId TxType.spend amount d now) })
            else ((false : Bool), some u)).2)
        rw [if_neg hg, if_pos rfl]
        show (0 : Int) ≤ u.coins + (if TxType.spend = TxType.earn then amount else -amount)
        rw [if_neg (by decide : ¬ (TxType.spend = TxType.earn))]
        omega

/-- Every coin-affecting operation preserves a non-negative balance. -/
theorem stepCoinOp_nonneg (st : AppState) (op : CoinOp)
    (h : coinsNonneg st.userData) :
    coinsNonneg (stepCoinOp st op).userData := by
  cases op with
  | download song txId now f w =>
    show coinsNonneg (handleDownload st song txId now f w).1.userData
    unfold handleDownload
    by_cases hg : downloadGuardFails st.userData = true
    · rw [if_pos hg]; exact h
    · rw [if_neg hg]
      cases f with
      | false => exact h
      | true =>
        by_cases hnp : notPremium st.userData = true
        · rw [if_pos rfl, if_pos hnp]
          exact processTransaction_spend_nonneg st.userData 5 _ txId now w h
        · rw [if_pos rfl, if_neg hnp]
          exact h
  | upgrade txId now w p =>
    show coinsNonneg (handleUpgrade st.userData txId now w p)
    unfold handleUpgrade
    have hr := processTransaction_spend_nonneg st.userData 100 "Elite Tier Upgrade" txId now w h
    set r := processTransaction st.userData 100 "Elite Tier Upgrade" TxType.spend txId now w with hrdef
    by_cases hc : r.1 && p
    · rw [if_pos hc]
      cases h2 : r.2 with
      | none => trivial
      | some u => rw [h2] at hr; simpa using hr
    · rw [if_neg hc]; exact hr
  | dedicate song txId now w =>
    show coinsNonneg (handleDedicate st.userData song.title txId now w)
    exact processTransaction_spend_nonneg st.userData 5 _ txId now w h

/-- C3: starting from a non-negative balance, no sequentially executed
sequence of coin-affecting operations (downloads, premium upgrades,
dedication sends) ever makes the balance negative: every overdraft is
rejected by the guard before any debit. -/
theorem coin_balance_never_negative (ops : List CoinOp) (st : AppState)
    (h : coinsNonneg st.userData) :
    coinsNonneg ((ops.foldl stepCoinOp st).userData) := by
  induction ops generalizing st with
  | nil => exact h
  | cons op rest ih =>
    exact ih (stepCoinOp st op) (stepCoinOp_nonneg st op h)

/-- A concrete sequence of coin operations: a download, a dedication that
drains the balance to 10, a failed upgrade attempt. -/
def sampleOps : List CoinOp :=
  [CoinOp.download sampleSong "t5" 600 true true,
    CoinOp.dedicate sampleSong2 "t6" 700 true,
    CoinOp.upgrade "t7" 800 true true]

/-- Closed instance of `coin_balance_never_negative` on `sampleApp` and
`sampleOps`. -/
theorem coin_balance_never_negative_witness :
    coinsNonneg sampleApp.userData ∧
    coinsNonneg ((sampleOps.foldl stepCoinOp sampleApp).userData) := by
  have h : coinsNonneg sampleApp.userData := by
    show (0 : Int) ≤ sampleUser.coins
    decide
  exact ⟨h, coin_balance_never_negative sampleOps sampleApp h⟩

end Musico

namespace Musico

/-- The `users` collection as a total map from uid to user record. -/
def UserStore : Type := String → UserData

/-- One `updateDoc(doc(db, 'users', uid), { friends: arrayUnion(fid) })`
write against the store. -/
def addFriendWrite (st : UserStore) (uid fid : String) : UserStore :=
  fun k =>
    if k = uid then { st uid with friends := arrayUnion (st uid).friends fid }
    else st k

/-- `handleLink(u)` from src/unnamed/part_000 (the inline Link handler in
src/unnamed/part_001's ProfileScreen is identical): two sequential
`arrayUnion` writes, first adding the found user's uid to the current
user's friend set, then the current user's uid to the found user's. -/
def handleLink (st : UserStore) (meUid otherUid : String) : UserStore :=
  addFriendWrite (addFriendWrite st meUid otherUid) otherUid meUid

/-- An element is always a member after `arrayUnion`-ing it in. -/
theorem mem_arrayUnion_self {α : Type} [DecidableEq α] (xs : List α) (x : α) :
    x ∈ arrayUnion xs x := by
  unfold arrayUnion
  by_cases h : x ∈ xs
  · rwa [if_pos h]
  · rw [if_neg h]
    exact List.mem_append_right xs (List.mem_singleton_self x)

/-- C8: after both writes of `handleLink` complete for distinct users `a`
and `b`, each is in the other's friend set. -/
theorem link_makes_friends_symmetric (st : UserStore) (a b : String)
    (hab : a ≠ b) :
    b ∈ (handleLink st a b a).friends ∧ a ∈ (handleLink st a b b).friends := by
  constructor
  · show b ∈ ((addFriendWrite (addFriendWrite st a b) b a) a).friends
    unfold addFriendWrite
    rw [if_neg hab]
    rw [if_pos rfl]
    exact mem_arrayUnion_self _ b
  · show a ∈ ((addFriendWrite (addFriendWrite st a b) b a) b).friends
    unfold addFriendWrite
    rw [if_pos rfl]
    exact mem_arrayUnion_self _ a

/-- A concrete user store: every uid maps to `sampleUser`. -/
def sampleStore : UserStore := fun _ => sampleUser

/-- Closed instance of `link_makes_friends_symmetric`. -/
theorem link_makes_friends_symmetric_witness :
    ("u1" : String) ≠ "u2" ∧
    ("u2" ∈ (handleLink sampleStore "u1" "u2" "u1").friends ∧
      "u1" ∈ (handleLink sampleStore "u1" "u2" "u2").friends) :=
  ⟨by decide, link_makes_friends_symmetric sampleStore "u1" "u2" (by decide)⟩

/-- The `newUser` record built in `AuthScreen.handleSubmit`
(src/App.tsx): the fixed initial account document written by `setDoc` at
sign-up, with the 20-coin welcome grant and its single genesis `earn`
ledger entry. -/
def newUser (uid name email : String) (now : Nat) : UserData :=
  { uid := uid, name := name, email := email, isPrivate := false, coins := 20,
    isPremium := false, theme := "default", friends := [], likedSongs := [],
    coinHistory := [mkTx "genesis" TxType.earn 20 "Galaxy Manifested" now] }

/-- C10: sign-up always creates the account in one fixed initial state:
20 coins, not premium, not private, empty friend and liked sets, and a
coin history holding exactly one `earn` transaction of amount 20. -/
theorem signup_initial_state (uid name email : String) (now : Nat) :
    (newUser uid name email now).coins = 20 ∧
    (newUser uid name email now).isPremium = false ∧
    (newUser uid name email now).isPrivate = false ∧
    (newUser uid name email now).friends = [] ∧
    (newUser uid name email now).likedSongs = [] ∧
    (newUser uid name email now).coinHistory.length = 1 ∧
    ∀ t ∈ (newUser uid name email now).coinHistory,
      t.type = TxType.earn ∧ t.amount = 20 := by
  refine ⟨rfl, rfl, rfl, rfl, rfl, rfl, ?_⟩
  intro t ht
  have : t = mkTx "genesis" TxType.earn 20 "Galaxy Manifested" now := by
    simpa [newUser] using ht
  rw [this]
  exact ⟨rfl, rfl⟩

end Musico
